import Mathlib

/-!
Verification of the line interpreter and packet assembler of Dispatch-GSW
(`src-tauri/src/deputy_interpreter.rs` and `src-tauri/src/serial.rs`).

Lines are modelled as `List Char`.  The regex-based field extractors of
`deputy_interpreter.rs` are embedded as dedicated matching functions with
leftmost-first search and greedy repetition, matching the semantics of the
`regex` crate on the ASCII inputs the device produces.  Case folding
(`(?i)`, `to_lowercase`, `to_uppercase`) is modelled on ASCII.

`latitude` / `longitude` are stored as the captured numeral text: the Rust
code parses the capture of `-?\d+\.\d+` with `parse::<f32>`, which never
fails on that shape, so presence of the field coincides with the regex
match and the decoded value is a deterministic function of the capture.
The bounded integer parses (`u8`, `i16`, `i8`), which can fail by
overflow, are modelled exactly.
-/

namespace Dispatch

/-- ASCII whitespace, the `\s` class on the ASCII range. -/
def isWsC (c : Char) : Bool :=
  c.toNat = 32 || c.toNat = 9 || c.toNat = 10 || c.toNat = 13 ||
  c.toNat = 11 || c.toNat = 12

/-- ASCII decimal digit, the `\d` class on the ASCII range. -/
def isDigitC (c : Char) : Bool :=
  48 ≤ c.toNat && c.toNat ≤ 57

/-- Uppercase ASCII letter. -/
def isUpperAZ (c : Char) : Bool :=
  65 ≤ c.toNat && c.toNat ≤ 90

/-- Lowercase ASCII letter. -/
def isLowerAZ (c : Char) : Bool :=
  97 ≤ c.toNat && c.toNat ≤ 122

/-- ASCII lowercasing of one character (`to_lowercase`, `(?i)` folding). -/
def lcc (c : Char) : Char :=
  if isUpperAZ c then Char.ofNat (c.toNat + 32) else c

/-- ASCII uppercasing of one character (`to_uppercase`). -/
def ucc (c : Char) : Char :=
  if isLowerAZ c then Char.ofNat (c.toNat - 32) else c

/-- Case-insensitive literal match at the current position; returns the rest
of the input on success. -/
def ciLit : List Char → List Char → Option (List Char)
  | [], s => some s
  | _ :: _, [] => none
  | p :: ps, c :: cs => if lcc p = lcc c then ciLit ps cs else none

/-- Case-sensitive literal match at the current position. -/
def litAt : List Char → List Char → Option (List Char)
  | [], s => some s
  | _ :: _, [] => none
  | p :: ps, c :: cs => if p = c then litAt ps cs else none

/-- Leftmost-first unanchored search: try the matcher at every start
position, earliest position first. -/
def searchAt (m : List Char → Option α) : List Char → Option α
  | [] => m []
  | c :: t =>
    match m (c :: t) with
    | some r => some r
    | none => searchAt m t

/-- Case-sensitive substring containment (`str::contains`). -/
def containsSub (needle hay : List Char) : Bool :=
  (searchAt (litAt needle) hay).isSome

/-- Match one literal character at the head; returns the rest. -/
def headIs (x : Char) : List Char → Option (List Char)
  | c :: t => if c = x then some t else none
  | [] => none

/-- Whether the head character is whitespace (the mandatory first
character of `\s+`). -/
def headWs : List Char → Bool
  | c :: _ => isWsC c
  | [] => false

/-- Greedy `\d+`: the maximal nonempty digit run and the rest. -/
def digits1 (s : List Char) : Option (List Char × List Char) :=
  let d := s.takeWhile isDigitC
  if d.isEmpty then none else some (d, s.dropWhile isDigitC)

/-- Greedy `-?\d+` (a minus sign is taken only when digits follow, exactly
as the backtracking alternative would resolve). -/
def signedDigits (s : List Char) : Option (List Char × List Char) :=
  match headIs '-' s with
  | some rest =>
    match digits1 rest with
    | some (d, r) => some ('-' :: d, r)
    | none => none
  | none => digits1 s

/-- The shared tail `\s*\(\d+\s*bytes\s*\|\s*(-?\d+)\s*dBm\s*\|\s*(-?\d+)\s*dB`
of both header regexes; returns the rssi and snr captures. -/
def matchTriple (s : List Char) : Option (List Char × List Char) :=
  match headIs '(' (s.dropWhile isWsC) with
  | some s1 =>
    match digits1 s1 with
    | some (_, s2) =>
      match ciLit "bytes".data (s2.dropWhile isWsC) with
      | some s3 =>
        match headIs '|' (s3.dropWhile isWsC) with
        | some s4 =>
          match signedDigits (s4.dropWhile isWsC) with
          | some (rssi, s5) =>
            match ciLit "dBm".data (s5.dropWhile isWsC) with
            | some s6 =>
              match headIs '|' (s6.dropWhile isWsC) with
              | some s7 =>
                match signedDigits (s7.dropWhile isWsC) with
                | some (snr, s8) =>
                  match ciLit "dB".data (s8.dropWhile isWsC) with
                  | some _ => some (rssi, snr)
                  | none => none
                | none => none
              | none => none
            | none => none
          | none => none
        | none => none
      | none => none
    | none => none
  | none => none

/-- `RE_HEADER_NODE` tried at one position:
`(?i)node\s+(\d+):\s*\( ... triple`; returns (node-id, rssi, snr) captures. -/
def matchNodeAt (s : List Char) : Option (List Char × List Char × List Char) :=
  match ciLit "node".data s with
  | some s1 =>
    if headWs s1 then
      match digits1 (s1.dropWhile isWsC) with
      | some (nid, s3) =>
        match headIs ':' s3 with
        | some s4 =>
          match matchTriple s4 with
          | some (rssi, snr) => some (nid, rssi, snr)
          | none => none
        | none => none
      | none => none
    else none
  | none => none

/-- `RE_HEADER_NODE` as an unanchored, leftmost search. -/
def searchNode (s : List Char) : Option (List Char × List Char × List Char) :=
  searchAt matchNodeAt s

/-- The case-SENSITIVE character class `[A-Z0-9/\-]` of
`RE_HEADER_LICENSED_NOFIX` (that regex carries no `(?i)` flag). -/
def isCallChar (c : Char) : Bool :=
  isUpperAZ c || isDigitC c || c.toNat = 47 || c.toNat = 45

/-- `RE_HEADER_LICENSED_NOFIX` with the callsign class fixed at `k`
characters: `^([A-Z0-9/\-]{3,12})-(\d+):\s*\( ... triple`. -/
def licensedAtK (s : List Char) (k : Nat) :
    Option (List Char × List Char × List Char × List Char) :=
  if k < 3 then none
  else if k ≤ s.length && (s.take k).all isCallChar then
    match headIs '-' (s.drop k) with
    | some r1 =>
      match digits1 r1 with
      | some (nid, r2) =>
        match headIs ':' r2 with
        | some r3 =>
          match matchTriple r3 with
          | some (rssi, snr) => some (s.take k, nid, rssi, snr)
          | none => none
        | none => none
      | none => none
    | none => none
  else none

/-- Greedy `{3,12}`: try the longest class run first, backtracking down. -/
def licensedTry (s : List Char) : Nat → Option (List Char × List Char × List Char × List Char)
  | 0 => none
  | k + 1 =>
    match licensedAtK s (k + 1) with
    | some r => some r
    | none => licensedTry s k

/-- `RE_HEADER_LICENSED_NOFIX`, anchored at the start of the line;
returns (callsign, node-id, rssi, snr) captures. -/
def matchLicensed (s : List Char) :
    Option (List Char × List Char × List Char × List Char) :=
  licensedTry s (min 12 (s.takeWhile isCallChar).length)

/-- The number shape `-?\d+\.\d+` of the latitude/longitude rules; returns
the captured numeral. -/
def matchDecimalAt (s : List Char) : Option (List Char) :=
  match signedDigits s with
  | some (ipart, r1) =>
    match headIs '.' r1 with
    | some r2 =>
      match digits1 r2 with
      | some (fpart, _) => some (ipart ++ '.' :: fpart)
      | none => none
    | none => none
  | none => none

/-- `RE_LAT` (`(?i)latitude:\s*(-?\d+\.\d+)`) at one position. -/
def latAt (s : List Char) : Option (List Char) :=
  match ciLit "latitude:".data s with
  | some s1 => matchDecimalAt (s1.dropWhile isWsC)
  | none => none

/-- `RE_LAT`, unanchored leftmost search. -/
def searchLat (s : List Char) : Option (List Char) :=
  searchAt latAt s

/-- `RE_LON` (`(?i)longitude:\s*(-?\d+\.\d+)`) at one position. -/
def lonAt (s : List Char) : Option (List Char) :=
  match ciLit "longitude:".data s with
  | some s1 => matchDecimalAt (s1.dropWhile isWsC)
  | none => none

/-- `RE_LON`, unanchored leftmost search. -/
def searchLon (s : List Char) : Option (List Char) :=
  searchAt lonAt s

/-- `RE_SATS` (`(?i)satellites count:\s*(\d+)`) at one position. -/
def satsAt (s : List Char) : Option (List Char) :=
  match ciLit "satellites count:".data s with
  | some s1 =>
    match digits1 (s1.dropWhile isWsC) with
    | some (d, _) => some d
    | none => none
  | none => none

/-- `RE_SATS`, unanchored leftmost search. -/
def searchSats (s : List Char) : Option (List Char) :=
  searchAt satsAt s

/-- `RE_FIX` (`(?i)fix status:\s*(\S+(?:\s+\S+)?)`) at one position;
`\S+` is greedy and the optional second token is taken when possible. -/
def fixAt (s : List Char) : Option (List Char) :=
  match ciLit "fix status:".data s with
  | some s1 =>
    let s2 := s1.dropWhile isWsC
    let tok1 := s2.takeWhile (fun c => !isWsC c)
    if tok1.isEmpty then none
    else
      let r1 := s2.dropWhile (fun c => !isWsC c)
      let ws := r1.takeWhile isWsC
      let tok2 := (r1.dropWhile isWsC).takeWhile (fun c => !isWsC c)
      if ws.isEmpty || tok2.isEmpty then some tok1
      else some (tok1 ++ ws ++ tok2)
  | none => none

/-- `RE_FIX`, unanchored leftmost search. -/
def searchFix (s : List Char) : Option (List Char) :=
  searchAt fixAt s

/-- `RE_NOFIX` (`(?i)no fix acquired`) as a containment test. -/
def noFixMatch (s : List Char) : Bool :=
  (searchAt (fun t => ciLit "no fix acquired".data t) s).isSome

/-- The case-insensitive callsign class of `RE_CALLSIGN`. -/
def isCallCharCI (c : Char) : Bool :=
  isUpperAZ c || isLowerAZ c || isDigitC c || c.toNat = 47 || c.toNat = 45

/-- `RE_CALLSIGN` (`(?i)callsign:\s*([A-Z0-9/\-]{3,12})`) at one position. -/
def callsignAt (s : List Char) : Option (List Char) :=
  match ciLit "callsign:".data s with
  | some s1 =>
    let s2 := s1.dropWhile isWsC
    let run := s2.takeWhile isCallCharCI
    if run.length < 3 then none else some (run.take 12)
  | none => none

/-- `RE_CALLSIGN`, unanchored leftmost search. -/
def searchCallsign (s : List Char) : Option (List Char) :=
  searchAt callsignAt s

/-- Decimal value of a digit run (`str::parse` on a digits-only string). -/
def decDigits (ds : List Char) : Nat :=
  ds.foldl (fun a c => 10 * a + (c.toNat - 48)) 0

/-- `parse::<u8>` on a `\d+` capture: fails exactly on overflow. -/
def parseU8 (ds : List Char) : Option Nat :=
  if decDigits ds ≤ 255 then some (decDigits ds) else none

/-- Signed value of a `-?\d+` capture. -/
def decSigned : List Char → Int
  | '-' :: ds => -(decDigits ds : Int)
  | ds => (decDigits ds : Int)

/-- `parse::<i16>` on a `-?\d+` capture: fails exactly on overflow. -/
def parseI16 (tok : List Char) : Option Int :=
  if -32768 ≤ decSigned tok ∧ decSigned tok ≤ 32767 then some (decSigned tok) else none

/-- `parse::<i8>` on a `-?\d+` capture: fails exactly on overflow. -/
def parseI8 (tok : List Char) : Option Int :=
  if -128 ≤ decSigned tok ∧ decSigned tok ≤ 127 then some (decSigned tok) else none

/-- `telemetry::FixStatus`. -/
inductive FixStatus where
  | NoFix
  | Fix
  | Diff
  | Est
  | Unknown
deriving DecidableEq

/-- `telemetry::DataPacket` (latitude/longitude hold the captured numeral
text, see the header comment). -/
structure DataPacket where
  node_id : Option Nat
  latitude : Option (List Char)
  longitude : Option (List Char)
  satellites_count : Option Nat
  fix_status : FixStatus
  receiver_rssi : Option Int
  receiver_snr : Option Int
  callsign : Option (List Char)
  timestamp_ms : Int
  raw_lines : List (List Char)
deriving DecidableEq

/-- `Result<DataPacket, ParseError>` with `ParseError::NoMatch` the only
error variant. -/
inductive PResult where
  | ok (p : DataPacket)
  | noMatch
deriving DecidableEq

/-- The fix-status substring mapping of `parse_zephyr_line` (the captured
token is uppercased first). -/
def fixFromVal (v : List Char) : FixStatus :=
  if containsSub "NO".data v then .NoFix
  else if containsSub "DIFF".data v then .Diff
  else if containsSub "EST".data v then .Est
  else if containsSub "FIX".data v then .Fix
  else .Unknown

/-- The fresh packet of `parse_zephyr_line`: defaults, the extraction-time
clock reading, and the single source line. -/
def initPacket (t : Int) (line : List Char) : DataPacket :=
  ⟨none, none, none, none, .Unknown, none, none, none, t, [line]⟩

/-- The header block of `parse_zephyr_line`: `RE_HEADER_NODE` first, and
`RE_HEADER_LICENSED_NOFIX` only when it did not match. -/
def applyHeader (cs : List Char) (p : DataPacket) : DataPacket :=
  match searchNode cs with
  | some (nid, rssi, snr) =>
    { p with node_id := parseU8 nid,
             receiver_rssi := parseI16 rssi,
             receiver_snr := parseI8 snr }
  | none =>
    match matchLicensed cs with
    | some (csign, nid, rssi, snr) =>
      { p with callsign := some csign,
               node_id := parseU8 nid,
               receiver_rssi := parseI16 rssi,
               receiver_snr := parseI8 snr }
    | none => p

/-- The `RE_LAT` block of `parse_zephyr_line`. -/
def applyLat (cs : List Char) (p : DataPacket) : DataPacket :=
  match searchLat cs with
  | some v => { p with latitude := some v }
  | none => p

/-- The `RE_LON` block of `parse_zephyr_line`. -/
def applyLon (cs : List Char) (p : DataPacket) : DataPacket :=
  match searchLon cs with
  | some v => { p with longitude := some v }
  | none => p

/-- The `RE_SATS` block of `parse_zephyr_line`. -/
def applySats (cs : List Char) (p : DataPacket) : DataPacket :=
  match searchSats cs with
  | some d => { p with satellites_count := parseU8 d }
  | none => p

/-- The `RE_CALLSIGN` block of `parse_zephyr_line` (an unconditional
assignment of the capture when the rule matches). -/
def applyCallsign (cs : List Char) (p : DataPacket) : DataPacket :=
  match searchCallsign cs with
  | some c => { p with callsign := some c }
  | none => p

/-- The fix-status block of `parse_zephyr_line`: `RE_FIX` capture mapped
through `fixFromVal` after uppercasing, else the `RE_NOFIX` fallback. -/
def applyFix (cs : List Char) (p : DataPacket) : DataPacket :=
  match searchFix cs with
  | some tok => { p with fix_status := fixFromVal (tok.map ucc) }
  | none =>
    if noFixMatch cs then { p with fix_status := .NoFix } else p

/-- The packet built by `parse_zephyr_line` before the `meaningful` test,
with the rule blocks applied in source order. -/
def rawPacket (t : Int) (cs : List Char) : DataPacket :=
  applyFix cs (applyCallsign cs (applySats cs (applyLon cs (applyLat cs
    (applyHeader cs (initPacket t cs))))))

/-- The `meaningful` test of `parse_zephyr_line`, field order as in source. -/
def meaningful (p : DataPacket) : Bool :=
  p.node_id.isSome || p.latitude.isSome || p.longitude.isSome ||
  p.receiver_rssi.isSome || p.receiver_snr.isSome ||
  p.satellites_count.isSome || p.callsign.isSome ||
  decide (p.fix_status ≠ FixStatus.Unknown)

/-- `parse_zephyr_line` (`deputy_interpreter.rs`): the extracted packet when
meaningful, `NoMatch` otherwise; `t` is the `now_ms()` clock reading. -/
def parseZephyrLine (t : Int) (cs : List Char) : PResult :=
  if meaningful (rawPacket t cs) then .ok (rawPacket t cs) else .noMatch

/-- The `merge_packet` closure of `serial.rs::open_port`: per-field
overwrite only when the incoming field is present, fix-status overwrite
only when the incoming status is not `Unknown`, timestamp always taken
from the incoming packet, raw lines appended. -/
def mergePacket (dst src : DataPacket) : DataPacket :=
  { node_id := if src.node_id.isSome then src.node_id else dst.node_id,
    latitude := if src.latitude.isSome then src.latitude else dst.latitude,
    longitude := if src.longitude.isSome then src.longitude else dst.longitude,
    satellites_count :=
      if src.satellites_count.isSome then src.satellites_count
      else dst.satellites_count,
    fix_status :=
      if src.fix_status ≠ FixStatus.Unknown then src.fix_status
      else dst.fix_status,
    receiver_rssi :=
      if src.receiver_rssi.isSome then src.receiver_rssi else dst.receiver_rssi,
    receiver_snr :=
      if src.receiver_snr.isSome then src.receiver_snr else dst.receiver_snr,
    callsign := if src.callsign.isSome then src.callsign else dst.callsign,
    timestamp_ms := src.timestamp_ms,
    raw_lines := dst.raw_lines ++ src.raw_lines }

/-- `trim_end_matches(&['\r', '\n'])`: strip all trailing CR/LF characters. -/
def trimEol (s : List Char) : List Char :=
  (s.reverse.dropWhile (fun c => c == '\r' || c == '\n')).reverse

/-- The packet-start classification of the read loop: either header regex
matches the line. -/
def isPacketStart (line : List Char) : Bool :=
  (searchNode line).isSome || (matchLicensed line).isSome

/-- The packet-end classification of the read loop: the lowercased line
contains a fix-status label or the no-fix phrase. -/
def isPacketEnd (line : List Char) : Bool :=
  containsSub "fix status:".data (line.map lcc) ||
  containsSub "no fix acquired".data (line.map lcc)

/-- One `Ok(n)`, `n > 0`, iteration of the read loop of `open_port`: trim
the line, flush the in-progress packet on packet-start, then on a
successful parse merge (or start) the packet and flush on packet-end; a
`NoMatch` parse only reports a diagnostic.  Returns the next in-progress
state together with the packets emitted this iteration, in order. -/
def stepLine (t : Int) (cur : Option DataPacket) (raw : List Char) :
    Option DataPacket × List DataPacket :=
  let line := trimEol raw
  let afterStart : Option DataPacket × List DataPacket :=
    if isPacketStart line then (none, cur.toList) else (cur, [])
  match parseZephyrLine t line with
  | .ok part =>
    let cur2 : DataPacket :=
      match afterStart.1 with
      | some ex => mergePacket ex part
      | none => part
    if isPacketEnd line then (none, afterStart.2 ++ [cur2])
    else (some cur2, afterStart.2)
  | .noMatch => afterStart

/-- One outcome of `reader.read_line`: zero bytes, an I/O error, or a line. -/
inductive ReadEvent where
  | eofRead
  | errRead
  | gotLine (raw : List Char)
deriving DecidableEq

/-- One iteration of the read loop on a read outcome: `Ok(0)` and `Err(_)`
both `continue` with nothing emitted and the in-progress state untouched. -/
def stepRead (t : Int) (cur : Option DataPacket) :
    ReadEvent → Option DataPacket × List DataPacket
  | .eofRead => (cur, [])
  | .errRead => (cur, [])
  | .gotLine raw => stepLine t cur raw

/-- The read loop of `open_port` over the finite sequence of read outcomes
observed before the stop flag is seen set, followed by the shutdown flush
of the pending packet; returns every packet emitted, in order. -/
def loopRun (t : Int) : List ReadEvent → Option DataPacket → List DataPacket
  | [], cur => cur.toList
  | ev :: evs, cur =>
    let r := stepRead t cur ev
    r.2 ++ loopRun t evs r.1

/-- The loop state and accumulated emissions after consuming the read
outcomes, without the shutdown flush. -/
def processEvents (t : Int) :
    List ReadEvent → Option DataPacket → Option DataPacket × List DataPacket
  | [], cur => (cur, [])
  | ev :: evs, cur =>
    let r := stepRead t cur ev
    let rest := processEvents t evs r.1
    (rest.1, r.2 ++ rest.2)

/-- The last present value of an optional field: the start value overridden
by each present element of the list in turn. -/
def lastSome (a : Option α) (l : List (Option α)) : Option α :=
  l.foldl (fun x y => if y.isSome then y else x) a

/-- The last non-`Unknown` status: the start value overridden by each
non-`Unknown` element of the list in turn. -/
def lastStatus (a : FixStatus) (l : List FixStatus) : FixStatus :=
  l.foldl (fun x y => if y ≠ FixStatus.Unknown then y else x) a

theorem foldl_merge_field {α : Type} (f : DataPacket → Option α)
    (hf : ∀ d s, f (mergePacket d s) = if (f s).isSome then f s else f d) :
    ∀ (srcs : List DataPacket) (d : DataPacket),
      f (srcs.foldl mergePacket d) = lastSome (f d) (srcs.map f) := by
  intro srcs
  induction srcs with
  | nil => intro d; rfl
  | cons s ss ih =>
    intro d
    simp only [List.foldl_cons, List.map_cons, lastSome] at *
    rw [ih, hf]

theorem foldl_merge_status :
    ∀ (srcs : List DataPacket) (d : DataPacket),
      (srcs.foldl mergePacket d).fix_status =
        lastStatus d.fix_status (srcs.map (fun s => s.fix_status)) := by
  intro srcs
  induction srcs with
  | nil => intro d; rfl
  | cons s ss ih =>
    intro d
    simp only [List.foldl_cons, List.map_cons, lastStatus] at *
    rw [ih]
    rfl

theorem lastSome_isSome {α : Type} :
    ∀ (l : List (Option α)) (a : Option α), a.isSome = true →
      (lastSome a l).isSome = true := by
  intro l
  induction l with
  | nil => intro a h; exact h
  | cons y ys ih =>
    intro a h
    simp only [lastSome, List.foldl_cons] at *
    by_cases hy : y.isSome = true
    · rw [if_pos hy]; exact ih y hy
    · rw [if_neg hy]; exact ih a h

theorem lastStatus_ne :
    ∀ (l : List FixStatus) (a : FixStatus), a ≠ FixStatus.Unknown →
      lastStatus a l ≠ FixStatus.Unknown := by
  intro l
  induction l with
  | nil => intro a h; exact h
  | cons y ys ih =>
    intro a h
    simp only [lastStatus, List.foldl_cons] at *
    by_cases hy : y = FixStatus.Unknown
    · rw [show (if y ≠ FixStatus.Unknown then y else a) = a by simp [hy]]; exact ih a h
    · rw [show (if y ≠ FixStatus.Unknown then y else a) = y by simp [hy]]; exact ih y hy

/-- C2: merging partial records never regresses a field from present to
absent: over any sequence of merges each optional field equals the last
present value offered for it, so a field once present stays present and is
overwritten only by a later present value of the same field; `fix_status`
equals the last non-`Unknown` value offered, so it is overwritten only by
an incoming status that is not `Unknown`. -/
theorem merge_non_regression (d : DataPacket) (srcs : List DataPacket) :
    ((srcs.foldl mergePacket d).node_id
        = lastSome d.node_id (srcs.map (fun s => s.node_id))) ∧
    ((srcs.foldl mergePacket d).latitude
        = lastSome d.latitude (srcs.map (fun s => s.latitude))) ∧
    ((srcs.foldl mergePacket d).longitude
        = lastSome d.longitude (srcs.map (fun s => s.longitude))) ∧
    ((srcs.foldl mergePacket d).satellites_count
        = lastSome d.satellites_count (srcs.map (fun s => s.satellites_count))) ∧
    ((srcs.foldl mergePacket d).receiver_rssi
        = lastSome d.receiver_rssi (srcs.map (fun s => s.receiver_rssi))) ∧
    ((srcs.foldl mergePacket d).receiver_snr
        = lastSome d.receiver_snr (srcs.map (fun s => s.receiver_snr))) ∧
    ((srcs.foldl mergePacket d).callsign
        = lastSome d.callsign (srcs.map (fun s => s.callsign))) ∧
    ((srcs.foldl mergePacket d).fix_status
        = lastStatus d.fix_status (srcs.map (fun s => s.fix_status))) ∧
    (d.node_id.isSome = true →
      ((srcs.foldl mergePacket d).node_id).isSome = true) ∧
    (d.latitude.isSome = true →
      ((srcs.foldl mergePacket d).latitude).isSome = true) ∧
    (d.longitude.isSome = true →
      ((srcs.foldl mergePacket d).longitude).isSome = true) ∧
    (d.satellites_count.isSome = true →
      ((srcs.foldl mergePacket d).satellites_count).isSome = true) ∧
    (d.receiver_rssi.isSome = true →
      ((srcs.foldl mergePacket d).receiver_rssi).isSome = true) ∧
    (d.receiver_snr.isSome = true →
      ((srcs.foldl mergePacket d).receiver_snr).isSome = true) ∧
    (d.callsign.isSome = true →
      ((srcs.foldl mergePacket d).callsign).isSome = true) ∧
    (d.fix_status ≠ FixStatus.Unknown →
      (srcs.foldl mergePacket d).fix_status ≠ FixStatus.Unknown) := by
  have h1 := foldl_merge_field (fun p => p.node_id) (fun d s => rfl) srcs d
  have h2 := foldl_merge_field (fun p => p.latitude) (fun d s => rfl) srcs d
  have h3 := foldl_merge_field (fun p => p.longitude) (fun d s => rfl) srcs d
  have h4 := foldl_merge_field (fun p => p.satellites_count) (fun d s => rfl) srcs d
  have h5 := foldl_merge_field (fun p => p.receiver_rssi) (fun d s => rfl) srcs d
  have h6 := foldl_merge_field (fun p => p.receiver_snr) (fun d s => rfl) srcs d
  have h7 := foldl_merge_field (fun p => p.callsign) (fun d s => rfl) srcs d
  have h8 := foldl_merge_status srcs d
  refine ⟨h1, h2, h3, h4, h5, h6, h7, h8, ?_, ?_, ?_, ?_, ?_, ?_, ?_, ?_⟩
  · intro h; rw [h1]; exact lastSome_isSome _ _ h
  · intro h; rw [h2]; exact lastSome_isSome _ _ h
  · intro h; rw [h3]; exact lastSome_isSome _ _ h
  · intro h; rw [h4]; exact lastSome_isSome _ _ h
  · intro h; rw [h5]; exact lastSome_isSome _ _ h
  · intro h; rw [h6]; exact lastSome_isSome _ _ h
  · intro h; rw [h7]; exact lastSome_isSome _ _ h
  · intro h; rw [h8]; exact lastStatus_ne _ _ h

/-- Witness for `merge_non_regression`: a node id set by a header line is
still present after merging in a later line that lacks it. -/
theorem merge_non_regression_witness :
    (([rawPacket 1 "Latitude: 1.5".data].foldl mergePacket
        (rawPacket 0 "Node 1: (1 bytes | -2 dBm | 3 dB):".data)).node_id).isSome
      = true :=
  (merge_non_regression (rawPacket 0 "Node 1: (1 bytes | -2 dBm | 3 dB):".data)
      [rawPacket 1 "Latitude: 1.5".data]).2.2.2.2.2.2.2.2.1 (by decide)

/-- C10: a read that yields zero bytes (`Ok(0)`) or a read error (`Err`)
leaves the in-progress record unchanged, emits nothing for that iteration,
and the loop just proceeds with the remaining read outcomes. -/
theorem read_noop (t : Int) (cur : Option DataPacket) :
    stepRead t cur ReadEvent.eofRead = (cur, []) ∧
    stepRead t cur ReadEvent.errRead = (cur, []) ∧
    (∀ evs : List ReadEvent,
      loopRun t (ReadEvent.eofRead :: evs) cur = loopRun t evs cur ∧
      loopRun t (ReadEvent.errRead :: evs) cur = loopRun t evs cur) :=
  ⟨rfl, rfl, fun evs =>
    ⟨by simp [loopRun, stepRead], by simp [loopRun, stepRead]⟩⟩

/-- C3: the assembler holds at most one in-progress record (its state is a
single `Option DataPacket`), and a packet-start line arriving while a
record is in progress emits the old record first: the step from state
`some prev` equals the step from the empty state with `prev` prepended to
the emissions. -/
theorem flush_before_start (t : Int) (prev : DataPacket) (raw : List Char)
    (h : isPacketStart (trimEol raw) = true) :
    stepLine t (some prev) raw =
      ((stepLine t none raw).1, prev :: (stepLine t none raw).2) := by
  simp only [stepLine, h, if_true]
  cases hp : parseZephyrLine t (trimEol raw) with
  | ok part => cases he : isPacketEnd (trimEol raw) <;> simp [he, Option.toList]
  | noMatch => simp [Option.toList]

/-- Witness for `flush_before_start` on a concrete header line. -/
theorem flush_before_start_witness :
    stepLine 0 (some (initPacket 0 [])) "Node 1: (1 bytes | -2 dBm | 3 dB):".data =
      ((stepLine 0 none "Node 1: (1 bytes | -2 dBm | 3 dB):".data).1,
        initPacket 0 [] ::
          (stepLine 0 none "Node 1: (1 bytes | -2 dBm | 3 dB):".data).2) :=
  flush_before_start 0 (initPacket 0 [])
    "Node 1: (1 bytes | -2 dBm | 3 dB):".data (by decide)

theorem loopRun_eq (t : Int) (evs : List ReadEvent) :
    ∀ cur, loopRun t evs cur =
      (processEvents t evs cur).2 ++ ((processEvents t evs cur).1).toList := by
  induction evs with
  | nil => intro cur; simp [loopRun, processEvents]
  | cons ev evs ih =>
    intro cur
    simp [loopRun, processEvents, ih, List.append_assoc]

/-- C4: for every finite read-outcome sequence, if a record is in progress
when the loop ends, exactly one final emission occurs after the last
consumed outcome and it carries that record; if no record is in progress,
no final emission occurs. -/
theorem final_flush (t : Int) (evs : List ReadEvent) :
    (∀ p, (processEvents t evs none).1 = some p →
      loopRun t evs none = (processEvents t evs none).2 ++ [p]) ∧
    ((processEvents t evs none).1 = none →
      loopRun t evs none = (processEvents t evs none).2) := by
  constructor
  · intro p hp; rw [loopRun_eq, hp]; rfl
  · intro hp; rw [loopRun_eq, hp]; simp

/-- Witness for `final_flush`: a lone header line leaves a record in
progress, and the shutdown flush emits exactly that record. -/
theorem final_flush_witness :
    loopRun 0 [ReadEvent.gotLine "Node 5: (10 bytes | -60 dBm | 5 dB):".data] none =
      (processEvents 0 [ReadEvent.gotLine "Node 5: (10 bytes | -60 dBm | 5 dB):".data]
          none).2 ++
        [rawPacket 0 "Node 5: (10 bytes | -60 dBm | 5 dB):".data] :=
  (final_flush 0 [ReadEvent.gotLine "Node 5: (10 bytes | -60 dBm | 5 dB):".data]).1
    (rawPacket 0 "Node 5: (10 bytes | -60 dBm | 5 dB):".data) (by decide)

theorem isSome_false_iff {α : Type} (a : Option α) : a.isSome = false ↔ a = none := by
  cases a <;> simp

theorem meaningful_eq_false_iff (p : DataPacket) :
    meaningful p = false ↔
      (p.node_id = none ∧ p.callsign = none ∧ p.latitude = none ∧
       p.longitude = none ∧ p.satellites_count = none ∧
       p.receiver_rssi = none ∧ p.receiver_snr = none ∧
       p.fix_status = FixStatus.Unknown) := by
  simp only [meaningful, Bool.or_eq_false_iff, isSome_false_iff,
    decide_eq_false_iff_not, not_not]
  tauto

/-- C5: the extractor returns `NoMatch` exactly when none of the recognized
fields were populated and the fix status stayed `Unknown`; otherwise it
returns the extracted packet as a success. -/
theorem noMatch_iff (t : Int) (cs : List Char) :
    (parseZephyrLine t cs = PResult.noMatch ↔
      ((rawPacket t cs).node_id = none ∧ (rawPacket t cs).callsign = none ∧
       (rawPacket t cs).latitude = none ∧ (rawPacket t cs).longitude = none ∧
       (rawPacket t cs).satellites_count = none ∧
       (rawPacket t cs).receiver_rssi = none ∧
       (rawPacket t cs).receiver_snr = none ∧
       (rawPacket t cs).fix_status = FixStatus.Unknown)) ∧
    (∀ p, parseZephyrLine t cs = PResult.ok p → p = rawPacket t cs) := by
  constructor
  · rw [← meaningful_eq_false_iff]
    unfold parseZephyrLine
    by_cases h : meaningful (rawPacket t cs) = true
    · rw [if_pos h]
      constructor
      · intro hc; cases hc
      · intro hf; rw [h] at hf; cases hf
    · have hf : meaningful (rawPacket t cs) = false := by
        cases hb : meaningful (rawPacket t cs)
        · rfl
        · exact absurd hb h
      rw [if_neg h]
      exact ⟨fun _ => hf, fun _ => rfl⟩
  · intro p hp
    unfold parseZephyrLine at hp
    by_cases h : meaningful (rawPacket t cs) = true
    · rw [if_pos h] at hp
      injection hp with e
      exact e.symm
    · rw [if_neg h] at hp
      cases hp

/-- Witness for `noMatch_iff`: an unrecognizable line maps to `NoMatch`. -/
theorem noMatch_iff_witness :
    parseZephyrLine 0 "garbage line".data = PResult.noMatch :=
  ((noMatch_iff 0 "garbage line".data).1).mpr (by decide)

/-- C6: a captured fix-status token is mapped by uppercase substring
containment in the fixed priority order NO, DIFF, EST, FIX, else Unknown;
when the fix rule does not match but the no-fix phrase occurs in the line,
the status becomes NoFix. -/
theorem fix_mapping (t : Int) (cs : List Char) :
    (∀ tok, searchFix cs = some tok →
      (rawPacket t cs).fix_status =
        (if containsSub "NO".data (tok.map ucc) then FixStatus.NoFix
         else if containsSub "DIFF".data (tok.map ucc) then FixStatus.Diff
         else if containsSub "EST".data (tok.map ucc) then FixStatus.Est
         else if containsSub "FIX".data (tok.map ucc) then FixStatus.Fix
         else FixStatus.Unknown)) ∧
    (searchFix cs = none → noFixMatch cs = true →
      (rawPacket t cs).fix_status = FixStatus.NoFix) := by
  constructor
  · intro tok h
    simp [rawPacket, applyFix, h, fixFromVal]
  · intro h hn
    simp [rawPacket, applyFix, h, hn]

/-- Witness for `fix_mapping`: the token `Differential` maps to `Diff`. -/
theorem fix_mapping_witness :
    (rawPacket 0 "Fix status: Differential".data).fix_status =
      (if containsSub "NO".data ("Differential".data.map ucc) then FixStatus.NoFix
       else if containsSub "DIFF".data ("Differential".data.map ucc) then FixStatus.Diff
       else if containsSub "EST".data ("Differential".data.map ucc) then FixStatus.Est
       else if containsSub "FIX".data ("Differential".data.map ucc) then FixStatus.Fix
       else FixStatus.Unknown) :=
  (fix_mapping 0 "Fix status: Differential".data).1 "Differential".data (by decide)

/-- C8 (counterexample): on a line where header rule B (capturing callsign
`KD2YIE`) and the standalone callsign rule (capturing `W1AW`) both match,
the standalone rule overwrites the header-derived callsign, so the final
callsign is `W1AW`, not `KD2YIE` as the claim requires. -/
theorem callsign_overwrite_cex :
    searchNode "KD2YIE-1: (13 bytes | -80 dBm | 7 dB): Callsign: W1AW".data = none ∧
    (matchLicensed
        "KD2YIE-1: (13 bytes | -80 dBm | 7 dB): Callsign: W1AW".data).map
        (fun r => r.1) = some "KD2YIE".data ∧
    searchCallsign "KD2YIE-1: (13 bytes | -80 dBm | 7 dB): Callsign: W1AW".data =
      some "W1AW".data ∧
    (rawPacket 0
        "KD2YIE-1: (13 bytes | -80 dBm | 7 dB): Callsign: W1AW".data).callsign =
      some "W1AW".data ∧
    (rawPacket 0
        "KD2YIE-1: (13 bytes | -80 dBm | 7 dB): Callsign: W1AW".data).callsign ≠
      some "KD2YIE".data :=
  ⟨by decide, by decide, by decide, by decide, by decide⟩

/-- C8 (amended): whenever the standalone callsign rule matches a line, the
extracted packet carries that rule's capture as its callsign, overwriting
any callsign set by a header match on the same line. -/
theorem callsign_standalone_wins (t : Int) (cs : List Char) (c : List Char)
    (h : searchCallsign cs = some c) : (rawPacket t cs).callsign = some c := by
  have hfix : ∀ p : DataPacket, (applyFix cs p).callsign = p.callsign := by
    intro p
    unfold applyFix
    cases searchFix cs
    · by_cases hn : noFixMatch cs = true <;> simp [hn]
    · simp
  simp [rawPacket, hfix, applyCallsign, h]

/-- Witness for `callsign_standalone_wins` on a concrete callsign line. -/
theorem callsign_standalone_wins_witness :
    (rawPacket 0 "Callsign: W1AW".data).callsign = some "W1AW".data :=
  callsign_standalone_wins 0 "Callsign: W1AW".data "W1AW".data (by decide)

/-- C1 (counterexample): the line `"Fix status:"` is classified packet-end,
its extraction reports `NoMatch`, and the in-progress record is then
neither emitted nor cleared — the claim requires an emission regardless of
extraction failure. -/
theorem end_flush_cex :
    isPacketEnd (trimEol "Fix status:".data) = true ∧
    parseZephyrLine 0 (trimEol "Fix status:".data) = PResult.noMatch ∧
    stepLine 0 (some (rawPacket 0 "Node 1: (1 bytes | -2 dBm | 3 dB):".data))
        "Fix status:".data =
      (some (rawPacket 0 "Node 1: (1 bytes | -2 dBm | 3 dB):".data), []) :=
  ⟨by decide, by decide, by decide⟩

/-- C1 (amended): for a packet-end line, the assembler emits and clears the
record only when the line's extraction succeeds: on success the merged
record is emitted and `current` cleared; on `NoMatch` (for a line that is
not also packet-start) nothing is emitted and `current` is unchanged. -/
theorem end_flush_on_ok (t : Int) (cur : Option DataPacket) (raw : List Char)
    (hend : isPacketEnd (trimEol raw) = true) :
    (∀ part, parseZephyrLine t (trimEol raw) = PResult.ok part →
      stepLine t cur raw =
        (none,
          (if isPacketStart (trimEol raw) then cur.toList else []) ++
            [(if isPacketStart (trimEol raw) then none else cur).elim part
              (fun ex => mergePacket ex part)])) ∧
    (parseZephyrLine t (trimEol raw) = PResult.noMatch →
      isPacketStart (trimEol raw) = false →
      stepLine t cur raw = (cur, [])) := by
  constructor
  · intro part hp
    simp only [stepLine, hp, hend]
    cases hs : isPacketStart (trimEol raw) <;> cases cur <;>
      simp [Option.elim, Option.toList]
  · intro hp hs
    simp only [stepLine, hp, hs]
    simp

/-- Witness for `end_flush_on_ok`: a successfully parsed fix-status line
flushes the in-progress record, merged with the line's fields. -/
theorem end_flush_on_ok_witness :
    stepLine 0 (some (rawPacket 0 "Node 1: (1 bytes | -2 dBm | 3 dB):".data))
        "Fix status: FIX".data =
      (none,
        (if isPacketStart (trimEol "Fix status: FIX".data) then
            (some (rawPacket 0 "Node 1: (1 bytes | -2 dBm | 3 dB):".data)).toList
          else []) ++
          [(if isPacketStart (trimEol "Fix status: FIX".data) then none
            else some (rawPacket 0 "Node 1: (1 bytes | -2 dBm | 3 dB):".data)).elim
              (rawPacket 0 (trimEol "Fix status: FIX".data))
              (fun ex => mergePacket ex (rawPacket 0 (trimEol "Fix status: FIX".data)))]) :=
  (end_flush_on_ok 0 (some (rawPacket 0 "Node 1: (1 bytes | -2 dBm | 3 dB):".data))
      "Fix status: FIX".data (by decide)).1
    (rawPacket 0 (trimEol "Fix status: FIX".data)) (by decide)

theorem applyHeader_ts (cs : List Char) (p : DataPacket) (t : Int) :
    applyHeader cs { p with timestamp_ms := t } =
      { applyHeader cs p with timestamp_ms := t } := by
  unfold applyHeader
  cases searchNode cs with
  | some r => rfl
  | none =>
    cases matchLicensed cs with
    | some r => rfl
    | none => rfl

theorem applyLat_ts (cs : List Char) (p : DataPacket) (t : Int) :
    applyLat cs { p with timestamp_ms := t } =
      { applyLat cs p with timestamp_ms := t } := by
  unfold applyLat
  cases searchLat cs <;> rfl

theorem applyLon_ts (cs : List Char) (p : DataPacket) (t : Int) :
    applyLon cs { p with timestamp_ms := t } =
      { applyLon cs p with timestamp_ms := t } := by
  unfold applyLon
  cases searchLon cs <;> rfl

theorem applySats_ts (cs : List Char) (p : DataPacket) (t : Int) :
    applySats cs { p with timestamp_ms := t } =
      { applySats cs p with timestamp_ms := t } := by
  unfold applySats
  cases searchSats cs <;> rfl

theorem applyCallsign_ts (cs : List Char) (p : DataPacket) (t : Int) :
    applyCallsign cs { p with timestamp_ms := t } =
      { applyCallsign cs p with timestamp_ms := t } := by
  unfold applyCallsign
  cases searchCallsign cs <;> rfl

theorem applyFix_ts (cs : List Char) (p : DataPacket) (t : Int) :
    applyFix cs { p with timestamp_ms := t } =
      { applyFix cs p with timestamp_ms := t } := by
  unfold applyFix
  cases searchFix cs with
  | some r => rfl
  | none => by_cases hn : noFixMatch cs = true <;> simp [hn]

theorem rawPacket_ts (t : Int) (cs : List Char) :
    rawPacket t cs = { rawPacket 0 cs with timestamp_ms := t } := by
  have h0 : initPacket t cs = { initPacket 0 cs with timestamp_ms := t } := rfl
  simp [rawPacket, h0, applyHeader_ts, applyLat_ts, applyLon_ts, applySats_ts,
    applyCallsign_ts, applyFix_ts]

/-- C9: extraction is deterministic modulo the clock: two runs on the same
line agree on success versus `NoMatch` and, on success, agree field for
field (including the source lines), differing only in the timestamp, which
equals the respective clock reading. -/
theorem reparse_deterministic (t1 t2 : Int) (cs : List Char) :
    (parseZephyrLine t1 cs = PResult.noMatch ↔
      parseZephyrLine t2 cs = PResult.noMatch) ∧
    (∀ p1 p2, parseZephyrLine t1 cs = PResult.ok p1 →
      parseZephyrLine t2 cs = PResult.ok p2 →
      p1.node_id = p2.node_id ∧ p1.callsign = p2.callsign ∧
      p1.latitude = p2.latitude ∧ p1.longitude = p2.longitude ∧
      p1.satellites_count = p2.satellites_count ∧
      p1.receiver_rssi = p2.receiver_rssi ∧ p1.receiver_snr = p2.receiver_snr ∧
      p1.fix_status = p2.fix_status ∧ p1.raw_lines = p2.raw_lines ∧
      p1.timestamp_ms = t1 ∧ p2.timestamp_ms = t2) := by
  have hts1 := rawPacket_ts t1 cs
  have hts2 := rawPacket_ts t2 cs
  have hm : meaningful (rawPacket t1 cs) = meaningful (rawPacket t2 cs) := by
    rw [hts1, hts2]; rfl
  constructor
  · unfold parseZephyrLine
    rw [hm]
    by_cases h : meaningful (rawPacket t2 cs) = true
    · rw [if_pos h, if_pos h]
      constructor <;> (intro hc; cases hc)
    · rw [if_neg h, if_neg h]
  · intro p1 p2 h1 h2
    unfold parseZephyrLine at h1 h2
    by_cases h : meaningful (rawPacket t1 cs) = true
    · rw [if_pos h] at h1
      rw [hm] at h
      rw [if_pos h] at h2
      injection h1 with e1
      injection h2 with e2
      rw [← e1, ← e2, hts1, hts2]
      exact ⟨rfl, rfl, rfl, rfl, rfl, rfl, rfl, rfl, rfl, rfl, rfl⟩
    · rw [if_neg h] at h1
      cases h1

/-- Witness for `reparse_deterministic` on a concrete latitude line with
clock readings 3 and 7. -/
theorem reparse_deterministic_witness :
    (rawPacket 3 "Latitude: 1.5".data).node_id =
        (rawPacket 7 "Latitude: 1.5".data).node_id ∧
    (rawPacket 3 "Latitude: 1.5".data).callsign =
        (rawPacket 7 "Latitude: 1.5".data).callsign ∧
    (rawPacket 3 "Latitude: 1.5".data).latitude =
        (rawPacket 7 "Latitude: 1.5".data).latitude ∧
    (rawPacket 3 "Latitude: 1.5".data).longitude =
        (rawPacket 7 "Latitude: 1.5".data).longitude ∧
    (rawPacket 3 "Latitude: 1.5".data).satellites_count =
        (rawPacket 7 "Latitude: 1.5".data).satellites_count ∧
    (rawPacket 3 "Latitude: 1.5".data).receiver_rssi =
        (rawPacket 7 "Latitude: 1.5".data).receiver_rssi ∧
    (rawPacket 3 "Latitude: 1.5".data).receiver_snr =
        (rawPacket 7 "Latitude: 1.5".data).receiver_snr ∧
    (rawPacket 3 "Latitude: 1.5".data).fix_status =
        (rawPacket 7 "Latitude: 1.5".data).fix_status ∧
    (rawPacket 3 "Latitude: 1.5".data).raw_lines =
        (rawPacket 7 "Latitude: 1.5".data).raw_lines ∧
    (rawPacket 3 "Latitude: 1.5".data).timestamp_ms = 3 ∧
    (rawPacket 7 "Latitude: 1.5".data).timestamp_ms = 7 :=
  (reparse_deterministic 3 7 "Latitude: 1.5".data).2
    (rawPacket 3 "Latitude: 1.5".data) (rawPacket 7 "Latitude: 1.5".data)
    (by decide) (by decide)

theorem charOfNat_toNat (n : Nat) (h : n < 55296) : (Char.ofNat n).toNat = n := by
  unfold Char.ofNat
  rw [dif_pos (Or.inl h)]
  rfl

theorem charEq_iff (a b : Char) : a = b ↔ a.toNat = b.toNat := by
  constructor
  · intro h; rw [h]
  · intro h; exact Char.eq_of_val_eq (by exact UInt32.toNat.inj h)

theorem isUpperAZ_true_iff (c : Char) :
    isUpperAZ c = true ↔ 65 ≤ c.toNat ∧ c.toNat ≤ 90 := by
  simp [isUpperAZ]

theorem lcc_toNat_of_upper {c : Char} (h : isUpperAZ c = true) :
    (lcc c).toNat = c.toNat + 32 := by
  have hb := (isUpperAZ_true_iff c).mp h
  unfold lcc
  rw [if_pos h]
  exact charOfNat_toNat _ (by omega)

theorem lcc_of_not_upper {c : Char} (h : isUpperAZ c = false) : lcc c = c := by
  unfold lcc
  rw [if_neg (by simp [h])]

theorem isWsC_false_of_ge {c : Char} (h : 48 ≤ c.toNat) : isWsC c = false := by
  simp only [isWsC, Bool.or_eq_false_iff, decide_eq_false_iff_not]
  omega

theorem isWsC_lcc (c : Char) : isWsC (lcc c) = isWsC c := by
  cases hu : isUpperAZ c with
  | false => rw [lcc_of_not_upper hu]
  | true =>
    have hb := (isUpperAZ_true_iff c).mp hu
    rw [isWsC_false_of_ge (c := lcc c) (by rw [lcc_toNat_of_upper hu]; omega),
        isWsC_false_of_ge (by omega)]

theorem isDigitC_false_of_ge {c : Char} (h : 65 ≤ c.toNat) : isDigitC c = false := by
  simp only [isDigitC, Bool.and_eq_false_iff, decide_eq_false_iff_not]
  omega

theorem isDigitC_lcc (c : Char) : isDigitC (lcc c) = isDigitC c := by
  cases hu : isUpperAZ c with
  | false => rw [lcc_of_not_upper hu]
  | true =>
    have hb := (isUpperAZ_true_iff c).mp hu
    rw [isDigitC_false_of_ge (c := lcc c) (by rw [lcc_toNat_of_upper hu]; omega),
        isDigitC_false_of_ge (by omega)]

theorem lcc_idem (c : Char) : lcc (lcc c) = lcc c := by
  cases hu : isUpperAZ c with
  | false => rw [lcc_of_not_upper hu, lcc_of_not_upper hu]
  | true =>
    have hb := (isUpperAZ_true_iff c).mp hu
    have hx := lcc_toNat_of_upper hu
    have h2 : isUpperAZ (lcc c) = false := by
      simp only [isUpperAZ, hx, Bool.and_eq_false_iff, decide_eq_false_iff_not]
      omega
    rw [lcc_of_not_upper h2]

theorem lcc_of_digit {c : Char} (h : isDigitC c = true) : lcc c = c := by
  apply lcc_of_not_upper
  simp only [isDigitC, Bool.and_eq_true, decide_eq_true_eq] at h
  simp only [isUpperAZ, Bool.and_eq_false_iff, decide_eq_false_iff_not]
  omega

theorem lcc_eq_special {x : Char} (hx1 : x.toNat < 65 ∨ 90 < x.toNat)
    (hx2 : x.toNat < 97 ∨ 122 < x.toNat) (c : Char) :
    lcc c = x ↔ c = x := by
  cases hu : isUpperAZ c with
  | false => rw [lcc_of_not_upper hu]
  | true =>
    have hb := (isUpperAZ_true_iff c).mp hu
    have hl := lcc_toNat_of_upper hu
    constructor
    · intro he
      have := (charEq_iff _ _).mp he
      omega
    · intro he
      have := (charEq_iff _ _).mp he
      omega

theorem isCallCharCI_lcc (c : Char) : isCallCharCI (lcc c) = isCallCharCI c := by
  cases hu : isUpperAZ c with
  | false => rw [lcc_of_not_upper hu]
  | true =>
    have hb := (isUpperAZ_true_iff c).mp hu
    have hl := lcc_toNat_of_upper hu
    have h1 : isCallCharCI c = true := by simp [isCallCharCI, hu]
    have h2 : isCallCharCI (lcc c) = true := by
      simp only [isCallCharCI, isUpperAZ, isLowerAZ, isDigitC, hl,
        Bool.or_eq_true, Bool.and_eq_true, decide_eq_true_eq]
      omega
    rw [h1, h2]

theorem takeWhile_lcc_of_pred (p : Char → Bool) (hp : ∀ c, p (lcc c) = p c)
    (s : List Char) : (s.map lcc).takeWhile p = (s.takeWhile p).map lcc := by
  induction s with
  | nil => rfl
  | cons c t ih =>
    simp only [List.map_cons, List.takeWhile_cons, hp]
    cases hc : p c <;> simp [ih]

theorem dropWhile_lcc_of_pred (p : Char → Bool) (hp : ∀ c, p (lcc c) = p c)
    (s : List Char) : (s.map lcc).dropWhile p = (s.dropWhile p).map lcc := by
  induction s with
  | nil => rfl
  | cons c t ih =>
    simp only [List.map_cons, List.dropWhile_cons, hp]
    cases hc : p c <;> simp [ih]

theorem dropWhile_ws_lcc (s : List Char) :
    (s.map lcc).dropWhile isWsC = (s.dropWhile isWsC).map lcc :=
  dropWhile_lcc_of_pred isWsC isWsC_lcc s

theorem map_lcc_of_all_digits (s : List Char) (h : ∀ c ∈ s, isDigitC c = true) :
    s.map lcc = s := by
  induction s with
  | nil => rfl
  | cons c t ih =>
    simp only [List.map_cons]
    rw [lcc_of_digit (h c (List.mem_cons_self c t)),
      ih (fun x hx => h x (List.mem_cons_of_mem c hx))]

theorem takeWhile_digit_lcc (s : List Char) :
    (s.map lcc).takeWhile isDigitC = s.takeWhile isDigitC := by
  rw [takeWhile_lcc_of_pred isDigitC isDigitC_lcc]
  exact map_lcc_of_all_digits _ (fun c hc => List.mem_takeWhile_imp hc)

theorem dropWhile_digit_lcc (s : List Char) :
    (s.map lcc).dropWhile isDigitC = (s.dropWhile isDigitC).map lcc :=
  dropWhile_lcc_of_pred isDigitC isDigitC_lcc s

theorem headIs_lcc {x : Char} (hx1 : x.toNat < 65 ∨ 90 < x.toNat)
    (hx2 : x.toNat < 97 ∨ 122 < x.toNat) (s : List Char) :
    headIs x (s.map lcc) = (headIs x s).map (fun r => r.map lcc) := by
  cases s with
  | nil => rfl
  | cons c t =>
    simp only [List.map_cons, headIs]
    by_cases hc : c = x
    · rw [if_pos ((lcc_eq_special hx1 hx2 c).mpr hc), if_pos hc]
      rfl
    · rw [if_neg (fun he => hc ((lcc_eq_special hx1 hx2 c).mp he)), if_neg hc]
      rfl

theorem headWs_lcc (s : List Char) : headWs (s.map lcc) = headWs s := by
  cases s with
  | nil => rfl
  | cons c t =>
    simp only [List.map_cons, headWs]
    exact isWsC_lcc c

theorem ciLit_lcc (p : List Char) :
    ∀ s, ciLit p (s.map lcc) = (ciLit p s).map (fun r => r.map lcc) := by
  induction p with
  | nil => intro s; rfl
  | cons x xs ih =>
    intro s
    cases s with
    | nil => rfl
    | cons c t =>
      simp only [List.map_cons, ciLit]
      rw [lcc_idem c]
      by_cases h : lcc x = lcc c
      · rw [if_pos h, if_pos h]
        exact ih t
      · rw [if_neg h, if_neg h]
        rfl

theorem isEmpty_map_lcc (s : List Char) : (s.map lcc).isEmpty = s.isEmpty := by
  cases s <;> rfl

theorem digits1_lcc (s : List Char) :
    digits1 (s.map lcc) = (digits1 s).map (fun pr => (pr.1, pr.2.map lcc)) := by
  simp only [digits1, takeWhile_digit_lcc, dropWhile_digit_lcc]
  cases h : (s.takeWhile isDigitC).isEmpty <;> simp [h]

theorem signedDigits_lcc (s : List Char) :
    signedDigits (s.map lcc) =
      (signedDigits s).map (fun pr => (pr.1, pr.2.map lcc)) := by
  unfold signedDigits
  rw [headIs_lcc (by decide) (by decide)]
  cases h : headIs '-' s with
  | none => simp [digits1_lcc]
  | some rest =>
    simp only [Option.map_some']
    rw [digits1_lcc]
    cases hd : digits1 rest with
    | none => rfl
    | some pr => rfl

theorem matchDecimalAt_lcc (s : List Char) :
    matchDecimalAt (s.map lcc) = matchDecimalAt s := by
  unfold matchDecimalAt
  rw [signedDigits_lcc]
  cases h1 : signedDigits s with
  | none => rfl
  | some pr1 =>
    obtain ⟨ip, r1⟩ := pr1
    simp only [Option.map_some']
    rw [headIs_lcc (by decide) (by decide)]
    cases h2 : headIs '.' r1 with
    | none => rfl
    | some r2 =>
      simp only [Option.map_some']
      rw [digits1_lcc]
      cases h3 : digits1 r2 with
      | none => rfl
      | some pr3 => rfl

theorem matchTriple_lcc (s : List Char) :
    matchTriple (s.map lcc) = matchTriple s := by
  unfold matchTriple
  rw [dropWhile_ws_lcc, headIs_lcc (by decide) (by decide)]
  cases h1 : headIs '(' (s.dropWhile isWsC) with
  | none => rfl
  | some s1 =>
    simp only [Option.map_some']
    rw [digits1_lcc]
    cases h2 : digits1 s1 with
    | none => rfl
    | some pr2 =>
      obtain ⟨d2, s2⟩ := pr2
      simp only [Option.map_some']
      rw [dropWhile_ws_lcc, ciLit_lcc]
      cases h3 : ciLit "bytes".data (s2.dropWhile isWsC) with
      | none => rfl
      | some s3 =>
        simp only [Option.map_some']
        rw [dropWhile_ws_lcc, headIs_lcc (by decide) (by decide)]
        cases h4 : headIs '|' (s3.dropWhile isWsC) with
        | none => rfl
        | some s4 =>
          simp only [Option.map_some']
          rw [dropWhile_ws_lcc, signedDigits_lcc]
          cases h5 : signedDigits (s4.dropWhile isWsC) with
          | none => rfl
          | some pr5 =>
            obtain ⟨rssi, s5⟩ := pr5
            simp only [Option.map_some']
            rw [dropWhile_ws_lcc, ciLit_lcc]
            cases h6 : ciLit "dBm".data (s5.dropWhile isWsC) with
            | none => rfl
            | some s6 =>
              simp only [Option.map_some']
              rw [dropWhile_ws_lcc, headIs_lcc (by decide) (by decide)]
              cases h7 : headIs '|' (s6.dropWhile isWsC) with
              | none => rfl
              | some s7 =>
                simp only [Option.map_some']
                rw [dropWhile_ws_lcc, signedDigits_lcc]
                cases h8 : signedDigits (s7.dropWhile isWsC) with
                | none => rfl
                | some pr8 =>
                  obtain ⟨snr, s8⟩ := pr8
                  simp only [Option.map_some']
                  rw [dropWhile_ws_lcc, ciLit_lcc]
                  cases h9 : ciLit "dB".data (s8.dropWhile isWsC) with
                  | none => rfl
                  | some s9 => rfl

theorem matchNodeAt_lcc (s : List Char) :
    matchNodeAt (s.map lcc) = matchNodeAt s := by
  unfold matchNodeAt
  rw [ciLit_lcc]
  cases h1 : ciLit "node".data s with
  | none => rfl
  | some s1 =>
    simp only [Option.map_some']
    rw [headWs_lcc]
    cases hw : headWs s1 with
    | false => simp
    | true =>
      simp only [if_true]
      rw [dropWhile_ws_lcc, digits1_lcc]
      cases h2 : digits1 (s1.dropWhile isWsC) with
      | none => rfl
      | some pr2 =>
        obtain ⟨nid, s3⟩ := pr2
        simp only [Option.map_some']
        rw [headIs_lcc (by decide) (by decide)]
        cases h3 : headIs ':' s3 with
        | none => rfl
        | some s4 =>
          simp only [Option.map_some']
          rw [matchTriple_lcc]

theorem searchAt_lcc {α : Type} (m2 m : List Char → Option α)
    (h : ∀ t, m2 (t.map lcc) = m t) :
    ∀ s, searchAt m2 (s.map lcc) = searchAt m s := by
  intro s
  induction s with
  | nil => exact h []
  | cons c t ih =>
    simp only [List.map_cons, searchAt]
    rw [show (lcc c :: t.map lcc) = (c :: t).map lcc from rfl, h (c :: t)]
    cases m (c :: t) <;> simp [ih]

theorem searchAt_lcc_map {α : Type} (m2 m : List Char → Option α) (g : α → α)
    (h : ∀ t, m2 (t.map lcc) = (m t).map g) :
    ∀ s, searchAt m2 (s.map lcc) = (searchAt m s).map g := by
  intro s
  induction s with
  | nil => exact h []
  | cons c t ih =>
    simp only [List.map_cons, searchAt]
    rw [show (lcc c :: t.map lcc) = (c :: t).map lcc from rfl, h (c :: t)]
    cases m (c :: t) <;> simp [ih]

theorem latAt_lcc (s : List Char) : latAt (s.map lcc) = latAt s := by
  unfold latAt
  rw [ciLit_lcc]
  cases h : ciLit "latitude:".data s with
  | none => rfl
  | some s1 =>
    simp only [Option.map_some']
    rw [dropWhile_ws_lcc, matchDecimalAt_lcc]

theorem lonAt_lcc (s : List Char) : lonAt (s.map lcc) = lonAt s := by
  unfold lonAt
  rw [ciLit_lcc]
  cases h : ciLit "longitude:".data s with
  | none => rfl
  | some s1 =>
    simp only [Option.map_some']
    rw [dropWhile_ws_lcc, matchDecimalAt_lcc]

theorem satsAt_lcc (s : List Char) : satsAt (s.map lcc) = satsAt s := by
  unfold satsAt
  rw [ciLit_lcc]
  cases h : ciLit "satellites count:".data s with
  | none => rfl
  | some s1 =>
    simp only [Option.map_some']
    rw [dropWhile_ws_lcc, digits1_lcc]
    cases h2 : digits1 (s1.dropWhile isWsC) with
    | none => rfl
    | some pr => rfl

theorem takeWhile_nonws_lcc (s : List Char) :
    (s.map lcc).takeWhile (fun c => !isWsC c) =
      (s.takeWhile (fun c => !isWsC c)).map lcc :=
  takeWhile_lcc_of_pred _ (fun c => by rw [isWsC_lcc]) s

theorem dropWhile_nonws_lcc (s : List Char) :
    (s.map lcc).dropWhile (fun c => !isWsC c) =
      (s.dropWhile (fun c => !isWsC c)).map lcc :=
  dropWhile_lcc_of_pred _ (fun c => by rw [isWsC_lcc]) s

theorem takeWhile_ws_lcc (s : List Char) :
    (s.map lcc).takeWhile isWsC = (s.takeWhile isWsC).map lcc :=
  takeWhile_lcc_of_pred _ isWsC_lcc s

theorem fixAt_lcc (s : List Char) :
    fixAt (s.map lcc) = (fixAt s).map (fun r => r.map lcc) := by
  unfold fixAt
  rw [ciLit_lcc]
  cases h : ciLit "fix status:".data s with
  | none => rfl
  | some s1 =>
    simp only [Option.map_some']
    rw [dropWhile_ws_lcc, takeWhile_nonws_lcc, isEmpty_map_lcc]
    cases he : ((s1.dropWhile isWsC).takeWhile (fun c => !isWsC c)).isEmpty with
    | true => simp
    | false =>
      simp only [Bool.false_eq_true, if_false]
      rw [dropWhile_nonws_lcc, takeWhile_ws_lcc, isEmpty_map_lcc,
        dropWhile_ws_lcc, takeWhile_nonws_lcc, isEmpty_map_lcc]
      cases hw : (((s1.dropWhile isWsC).dropWhile
          (fun c => !isWsC c)).takeWhile isWsC).isEmpty with
      | true => simp
      | false =>
        cases ht : ((((s1.dropWhile isWsC).dropWhile
            (fun c => !isWsC c)).dropWhile isWsC).takeWhile
              (fun c => !isWsC c)).isEmpty with
        | true => simp
        | false => simp [List.map_append]

theorem callsignAt_lcc (s : List Char) :
    callsignAt (s.map lcc) = (callsignAt s).map (fun r => r.map lcc) := by
  unfold callsignAt
  rw [ciLit_lcc]
  cases h : ciLit "callsign:".data s with
  | none => rfl
  | some s1 =>
    simp only [Option.map_some']
    rw [dropWhile_ws_lcc, takeWhile_lcc_of_pred _ isCallCharCI_lcc,
      List.length_map]
    by_cases hl : ((s1.dropWhile isWsC).takeWhile isCallCharCI).length < 3
    · rw [if_pos hl, if_pos hl]
      rfl
    · rw [if_neg hl, if_neg hl]
      simp [List.map_take]

theorem searchNode_lcc (s : List Char) :
    searchNode (s.map lcc) = searchNode s :=
  searchAt_lcc matchNodeAt matchNodeAt matchNodeAt_lcc s

theorem searchLat_lcc (s : List Char) :
    searchLat (s.map lcc) = searchLat s :=
  searchAt_lcc latAt latAt latAt_lcc s

theorem searchLon_lcc (s : List Char) :
    searchLon (s.map lcc) = searchLon s :=
  searchAt_lcc lonAt lonAt lonAt_lcc s

theorem searchSats_lcc (s : List Char) :
    searchSats (s.map lcc) = searchSats s :=
  searchAt_lcc satsAt satsAt satsAt_lcc s

theorem searchFix_lcc (s : List Char) :
    searchFix (s.map lcc) = (searchFix s).map (fun r => r.map lcc) :=
  searchAt_lcc_map fixAt fixAt (fun r => r.map lcc) fixAt_lcc s

theorem searchCallsign_lcc (s : List Char) :
    searchCallsign (s.map lcc) = (searchCallsign s).map (fun r => r.map lcc) :=
  searchAt_lcc_map callsignAt callsignAt (fun r => r.map lcc) callsignAt_lcc s

theorem noFixMatch_lcc (s : List Char) : noFixMatch (s.map lcc) = noFixMatch s := by
  unfold noFixMatch
  rw [searchAt_lcc_map (fun t => ciLit "no fix acquired".data t)
    (fun t => ciLit "no fix acquired".data t) (fun r => r.map lcc)
    (fun t => ciLit_lcc _ t) s]
  cases searchAt (fun t => ciLit "no fix acquired".data t) s <;> rfl

/-- C7 (counterexample): header rule B is case-sensitive, not
case-insensitive: it matches the uppercase licensed header line but not
the same line lowercased. -/
theorem licensed_case_cex :
    (matchLicensed "KD2YIE-1: (13 bytes | -80 dBm | 7 dB):".data).isSome = true ∧
    (matchLicensed
        (("KD2YIE-1: (13 bytes | -80 dBm | 7 dB):".data).map lcc)).isSome = false :=
  ⟨by decide, by decide⟩

/-- C7 (amended): every extraction rule except header rule B is
case-insensitive — lowercasing the line changes neither whether the rule
matches nor, for the numeric-capturing rules, its captures — and header
rules A and B are mutually exclusive per line: rule A is consulted first,
and whenever it matches, its captures alone populate the header fields. -/
theorem rules_ci_and_exclusive (cs : List Char) :
    searchNode (cs.map lcc) = searchNode cs ∧
    searchLat (cs.map lcc) = searchLat cs ∧
    searchLon (cs.map lcc) = searchLon cs ∧
    searchSats (cs.map lcc) = searchSats cs ∧
    (searchFix (cs.map lcc)).isSome = (searchFix cs).isSome ∧
    (searchCallsign (cs.map lcc)).isSome = (searchCallsign cs).isSome ∧
    noFixMatch (cs.map lcc) = noFixMatch cs ∧
    (∀ r, searchNode cs = some r → ∀ p : DataPacket,
      applyHeader cs p =
        { p with node_id := parseU8 r.1,
                 receiver_rssi := parseI16 r.2.1,
                 receiver_snr := parseI8 r.2.2 }) := by
  refine ⟨searchNode_lcc cs, searchLat_lcc cs, searchLon_lcc cs,
    searchSats_lcc cs, ?_, ?_, noFixMatch_lcc cs, ?_⟩
  · rw [searchFix_lcc]
    cases searchFix cs <;> rfl
  · rw [searchCallsign_lcc]
    cases searchCallsign cs <;> rfl
  · intro r h p
    unfold applyHeader
    rw [h]

/-- Witness for `rules_ci_and_exclusive`: on a concrete node-header line,
rule A's captures populate the header fields. -/
theorem rules_ci_and_exclusive_witness :
    applyHeader "Node 3: (20 bytes | -72 dBm | 9 dB):".data (initPacket 0 []) =
      { initPacket 0 [] with
          node_id := parseU8 ['3'],
          receiver_rssi := parseI16 ['-', '7', '2'],
          receiver_snr := parseI8 ['9'] } :=
  (rules_ci_and_exclusive
      "Node 3: (20 bytes | -72 dBm | 9 dB):".data).2.2.2.2.2.2.2
    (['3'], ['-', '7', '2'], ['9']) (by decide) (initPacket 0 [])

end Dispatch
